import Mathlib

/-!
# Verification of `cache.go` (package `cache`)

A shallow embedding of the cache facade: process-wide state (`cacheManager`,
`keyPrefix`), `Initialize`, `compose`, `marshal`, `unmarshal`, `Set`,
`SetWithTTL`, `Get` and `Delete`.

Modelling conventions.

* A Go `string` and a Go `[]byte` are both finite sequences of bytes; the
  conversions `string(data)` and `[]byte(data)` copy the bytes unchanged.
* A Go function returning `(x, err)` is a function into a pair whose second
  component is `Option GoError` (`none` is the `nil` error).
* Imported packages (`gob`, `ristretto`, `gocache`, `go-redis`) are not part of
  this program.  They appear as parameters: `Gob`, `Libraries`, and the
  method set `Cache σ` of `*cache.Cache[string]`, acting on a state `σ` that
  stands for everything the backends hold.
* A panic ends the call and keeps the state reached so far (`Exec.panic`).
  The codec can panic as well as return an error (`gob` panics when handed a
  nil pointer), so its calls have a panic outcome too (`Outcome.panic`).
* `cacheManager` is a pointer; `none` is the nil pointer.  The methods of
  `*cache.Cache[string]` read a field of their receiver, so calling one
  through the nil pointer is a nil-pointer dereference.
* The `context.Context` argument carries cancellation only and is dropped.
-/

namespace CachePkg

/-! ## Go values -/

/-- One byte. -/
abbrev Byte := Fin 256

/-- Go `string`: an immutable sequence of bytes. -/
abbrev GoString := List Byte

/-- Go conversion `string(data)` of a `[]byte`. -/
def string (data : List Byte) : GoString := data

/-- Go conversion `[]byte(s)` of a `string`. -/
def bytes (s : GoString) : List Byte := s

/-- A Go `error` value: `ident` tells error values apart (two error values
with the same text need not be the same value), `Error` is the text its
`Error()` method returns. -/
structure GoError where
  ident : Nat
  Error : GoString
deriving DecidableEq, Repr

/-- What a panic carries. -/
inductive PanicValue where
  /-- From `panic(err)` for an error value `err` handed back by a library. -/
  | error (err : GoError)
  /-- From `panic(fmt.Errorf(msg))`. -/
  | errorf (msg : GoString)
  /-- The runtime error of dereferencing a nil pointer. -/
  | nilDereference
  /-- A panic raised inside an imported package, with its message. -/
  | raised (msg : GoString)
deriving DecidableEq, Repr

/-- Outcome of running a function over a state `S`: it returns `r` in state
`st`, or it panics in state `st`. -/
inductive Exec (S R : Type) where
  | ret (r : R) (st : S)
  | panic (v : PanicValue) (st : S)

/-- Outcome of a call that touches no state: it returns `r`, or it panics. -/
inductive Outcome (R : Type) where
  | ret (r : R)
  | panic (v : PanicValue)

/-- State in which the call ended. -/
def Exec.state {S R : Type} : Exec S R → S
  | .ret _ st => st
  | .panic _ st => st

/-- Returned value, when the call returned. -/
def Exec.result {S R : Type} : Exec S R → Option R
  | .ret r _ => some r
  | .panic _ _ => none

/-- Whether the call ended in a panic (a fatal failure). -/
def Exec.panicked {S R : Type} : Exec S R → Bool
  | .ret _ _ => false
  | .panic _ _ => true

/-! ## Source constants and types -/

/-- The literal `"default"`. -/
def defaultPrefix : GoString := [100, 101, 102, 97, 117, 108, 116]

/-- The literal `":"`. -/
def colon : GoString := [58]

/-- The text of `fmt.Errorf("initialization with redis needs redis url")`. -/
def msgNeedsRedisURL : GoString :=
  [105, 110, 105, 116, 105, 97, 108, 105, 122, 97, 116, 105, 111, 110, 32,
   119, 105, 116, 104, 32, 114, 101, 100, 105, 115, 32, 110, 101, 101, 100, 115, 32,
   114, 101, 100, 105, 115, 32, 117, 114, 108]

/-- The text of `fmt.Errorf("unknown cache type")`. -/
def msgUnknownCacheType : GoString :=
  [117, 110, 107, 110, 111, 119, 110, 32, 99, 97, 99, 104, 101, 32, 116, 121, 112, 101]

/-- Go `type Type int`. -/
abbrev CacheType := Int

/-- The constant `TypeLocal` (`iota` = 0). -/
def TypeLocal : CacheType := 0

/-- The constant `TypeRedis` (`iota` = 1). -/
def TypeRedis : CacheType := 1

/-- Go `type Config struct`; the field `Type` is spelled `Type_` (`Type` is a
reserved word here). -/
structure Config where
  Prefix : GoString
  Type_ : CacheType
  RedisURL : GoString
deriving DecidableEq, Repr

/-! ## Imported packages, as parameters -/

/-- Options given to the store on a write: `none` for no option,
`some ttl` for `store.WithExpiration(ttl)` (a `time.Duration`). -/
abbrev StoreOptions := Option Int

/-- Method set of `*cache.Cache[string]` used by the facade, over the state
`σ` held by the backends. -/
structure Cache (σ : Type) where
  Set : σ → GoString → GoString → StoreOptions → σ × Option GoError
  Get : σ → GoString → σ × (GoString × Option GoError)
  Delete : σ → GoString → σ × Option GoError

/-- The `ristretto.Config` literal fields set by `Initialize`. -/
structure RistrettoConfig where
  NumCounters : Nat
  MaxCost : Nat
  BufferItems : Nat
deriving DecidableEq, Repr

/-- The `redis.Options` literal field set by `Initialize`. -/
structure RedisOptions where
  Addr : GoString
deriving DecidableEq, Repr

/-- The constructors `Initialize` calls in the imported packages. -/
structure Libraries (σ : Type) where
  /-- The type `*ristretto.Cache`. -/
  RistrettoCache : Type
  /-- The type `*redis.Client`. -/
  RedisClient : Type
  /-- The type `store.StoreInterface`. -/
  StoreInterface : Type
  ristretto_NewCache : RistrettoConfig → Except GoError RistrettoCache
  ristretto_store_NewRistretto : RistrettoCache → StoreInterface
  redis_NewClient : RedisOptions → RedisClient
  redis_store_NewRedis : RedisClient → StoreInterface
  cache_New : StoreInterface → Cache σ

/-- The `gob` encoder and decoder on values of type `α`.
`Encode val` is `gob.NewEncoder(&buf).Encode(val)` on a fresh buffer: the
buffer content afterwards and the error.  `Decode data container` is
`gob.NewDecoder(bytes.NewReader(data)).Decode(container)`: what the container
points to afterwards and the error.  Either call can panic instead of
returning. -/
structure Gob (α : Type) where
  Encode : α → Outcome (List Byte × Option GoError)
  Decode : List Byte → α → Outcome (α × Option GoError)

/-! ## Process-wide state -/

/-- The package variables `cacheManager` and `keyPrefix`. -/
structure Globals (σ : Type) where
  cacheManager : Option (Cache σ)
  keyPrefix : GoString

/-- The package variables before any assignment: nil pointer, empty string. -/
def Globals.zero (σ : Type) : Globals σ :=
  { cacheManager := none, keyPrefix := [] }

/-! ## The functions of `cache.go` -/

/-- `func Initialize(c *Config)`; `none` is the nil pointer. -/
def Initialize {σ : Type} (L : Libraries σ) (c : Option Config) (g : Globals σ) :
    Exec (Globals σ) Unit :=
  let c : Config :=
    match c with
    | none => { Prefix := defaultPrefix, Type_ := 0, RedisURL := [] }
    | some c => c
  let finish (cacheStore : L.StoreInterface) : Exec (Globals σ) Unit :=
    let g1 : Globals σ := { g with cacheManager := some (L.cache_New cacheStore) }
    let g2 : Globals σ := { g1 with keyPrefix := c.Prefix }
    .ret () g2
  if c.Type_ = TypeLocal then
    match L.ristretto_NewCache { NumCounters := 1000000, MaxCost := 2 ^ 30, BufferItems := 64 } with
    | .error err => .panic (.error err) g
    | .ok ristrettoCache => finish (L.ristretto_store_NewRistretto ristrettoCache)
  else if c.Type_ = TypeRedis then
    if c.RedisURL.length = 0 then
      .panic (.errorf msgNeedsRedisURL) g
    else
      let rdb := L.redis_NewClient { Addr := c.RedisURL }
      finish (L.redis_store_NewRedis rdb)
  else
    .panic (.errorf msgUnknownCacheType) g

/-- `func compose(key string) string`. -/
def compose {σ : Type} (g : Globals σ) (key : GoString) : GoString :=
  g.keyPrefix ++ colon ++ key

/-- `func marshal(val interface{}) ([]byte, error)`; a panic of the encoder
leaves `marshal` as a panic. -/
def marshal {α : Type} (G : Gob α) (val : α) : Outcome (List Byte × Option GoError) :=
  match G.Encode val with
  | .panic p => .panic p
  | .ret (_, some err) => .ret ([], some err)
  | .ret (buf, none) => .ret (buf, none)

/-- `func unmarshal(data []byte, container interface{}) error`, with what the
container points to afterwards. -/
def unmarshal {α : Type} (G : Gob α) (data : List Byte) (container : α) :
    Outcome (α × Option GoError) :=
  G.Decode data container

/-- `func Set(ctx, key, value) error`. -/
def Set {σ α : Type} (G : Gob α) (g : Globals σ) (key : GoString) (value : α) (w : σ) :
    Exec σ (Option GoError) :=
  match marshal G value with
  | .panic p => .panic p w
  | .ret (_, some err) => .ret (some err) w
  | .ret (data, none) =>
    match g.cacheManager with
    | none => .panic .nilDereference w
    | some cm =>
      let r := cm.Set w (compose g key) (string data) none
      .ret r.2 r.1

/-- `func SetWithTTL(ctx, key, value, ttl) error`. -/
def SetWithTTL {σ α : Type} (G : Gob α) (g : Globals σ) (key : GoString) (value : α)
    (ttl : Int) (w : σ) : Exec σ (Option GoError) :=
  match marshal G value with
  | .panic p => .panic p w
  | .ret (_, some err) => .ret (some err) w
  | .ret (data, none) =>
    match g.cacheManager with
    | none => .panic .nilDereference w
    | some cm =>
      let r := cm.Set w (compose g key) (string data) (some ttl)
      .ret r.2 r.1

/-- `func Get(ctx, key, container) error`, with what the container points to
afterwards.  `ErrorNotFound` is the package's error value of that name and
`NOT_FOUND_ERR` the constant `store.NOT_FOUND_ERR`; both are declared outside
`cache.go`. -/
def Get {σ α : Type} (ErrorNotFound : GoError) (NOT_FOUND_ERR : GoString) (G : Gob α)
    (g : Globals σ) (key : GoString) (container : α) (w : σ) :
    Exec σ (α × Option GoError) :=
  match g.cacheManager with
  | none => .panic .nilDereference w
  | some cm =>
    let r := cm.Get w (compose g key)
    let data := r.2.1
    match r.2.2 with
    | some err =>
      if err.Error = NOT_FOUND_ERR then .ret (container, some ErrorNotFound) r.1
      else .ret (container, some err) r.1
    | none =>
      match unmarshal G (bytes data) container with
      | .panic p => .panic p r.1
      | .ret res => .ret res r.1

/-- `func Delete(ctx, key) error`. -/
def Delete {σ : Type} (g : Globals σ) (key : GoString) (w : σ) : Exec σ (Option GoError) :=
  match g.cacheManager with
  | none => .panic .nilDereference w
  | some cm =>
    let r := cm.Delete w (compose g key)
    .ret r.2 r.1

/-! ## The contract of a backend with read-after-write

`cache.go` delegates every read and write to `cacheManager`; what a read
after a write returns is a property of the backend.  `KeyValueContract` is
the contract of a backend that holds a map from physical keys to stored
strings (`entries`), signals an absent key by an error whose text is
`NOT_FOUND_ERR`, and on which a write or delete that reports success has
taken effect on its own key and on no other.  The distributed store behaves
so.  The local store does not: it accepts a write of a new key into a buffer
and applies it later, so a read right after an accepted write can miss
(`Ref.localCache` below is such a backend and meets no `KeyValueContract`). -/

/-- Contract of a backend `cm` whose content in state `w` is the map
`entries w`. -/
structure KeyValueContract {σ : Type} (cm : Cache σ)
    (entries : σ → GoString → Option GoString) (NOT_FOUND_ERR : GoString) : Prop where
  get_present : ∀ w key x, entries w key = some x → (cm.Get w key).2 = (x, none)
  get_absent : ∀ w key, entries w key = none →
    ∃ e, (cm.Get w key).2.2 = some e ∧ e.Error = NOT_FOUND_ERR
  set_entry : ∀ w key x, (cm.Set w key x none).2 = none →
    entries (cm.Set w key x none).1 key = some x
  set_frame : ∀ w key x o key', key' ≠ key →
    entries (cm.Set w key x o).1 key' = entries w key'
  delete_entry : ∀ w key, (cm.Delete w key).2 = none →
    entries (cm.Delete w key).1 key = none
  delete_frame : ∀ w key key', key' ≠ key →
    entries (cm.Delete w key).1 key' = entries w key'
  delete_absent : ∀ w key, entries w key = none → (cm.Delete w key).2 = none

/-! ## Reference instances of the parameters

Backends and a codec on which the functions are evaluated on concrete inputs:
a plain map (`Ref.cache`), a backend that fails every call
(`Ref.brokenCache`), the pair of a write-buffered local store and a map-like
distributed store that `Initialize` chooses between (`Ref.backends`), and a
codec that treats zero fields the way `gob` does (`Ref.gob`). -/

namespace Ref

/-- State of the map backend: the map itself. -/
abbrev State := GoString → Option GoString

/-- The empty map. -/
def empty : State := fun _ => none

/-- A value for the parameter `NOT_FOUND_ERR` of `Get`: the text
`"value not found in store"`. -/
def NOT_FOUND_ERR : GoString :=
  [118, 97, 108, 117, 101, 32, 110, 111, 116, 32, 102, 111, 117, 110, 100, 32,
   105, 110, 32, 115, 116, 111, 114, 101]

/-- The error value the reference backends return for an absent key. -/
def storeNotFound : GoError := { ident := 1, Error := NOT_FOUND_ERR }

/-- An error value of a backend that is not its not-found signal
(text `"EOF"`). -/
def storeFailure : GoError := { ident := 2, Error := [69, 79, 70] }

/-- A value for the parameter `ErrorNotFound` of `Get` (text `"not found"`). -/
def ErrorNotFound : GoError :=
  { ident := 0, Error := [110, 111, 116, 32, 102, 111, 117, 110, 100] }

/-- The map backend: a write is in effect when `Set` returns. -/
def cache : Cache State where
  Set w key x _ := (Function.update w key (some x), none)
  Get w key :=
    match w key with
    | some x => (w, (x, none))
    | none => (w, ([], some storeNotFound))
  Delete w key := (Function.update w key none, none)

/-- A backend whose every call fails with `storeFailure`, as a distributed
store does while the service cannot be reached. -/
def brokenCache : Cache State where
  Set w _ _ _ := (w, some storeFailure)
  Get w _ := (w, ([], some storeFailure))
  Delete w _ := (w, some storeFailure)

/-- Libraries that build the map backend for both kinds. -/
def libraries : Libraries State where
  RistrettoCache := Unit
  RedisClient := Unit
  StoreInterface := Unit
  ristretto_NewCache _ := .ok ()
  ristretto_store_NewRistretto _ := ()
  redis_NewClient _ := ()
  redis_store_NewRedis _ := ()
  cache_New _ := cache

/-- Initialized process-wide state over the map backend with the given
namespace. -/
def globals (pfx : GoString) : Globals State :=
  { cacheManager := some cache, keyPrefix := pfx }

/-- What the two stores of `Ref.backends` hold.  `stored` is what reads of
the local store see; `queued` are the operations the local store has
accepted and not yet applied, oldest first (`some x` a write of `x`, `none` a
removal); `remote` is the map held by the distributed service. -/
structure World where
  stored : GoString → Option GoString
  queued : List (GoString × Option GoString)
  remote : GoString → Option GoString

/-- Both stores empty. -/
def World.empty : World :=
  { stored := fun _ => none, queued := [], remote := fun _ => none }

/-- The write-buffered local backend.  A write to a key that reads already
see replaces its value at once; a write to a new key is accepted (no error)
and queued.  A read sees `stored` only.  A delete removes the key from
`stored` at once and queues the removal behind the writes already queued. -/
def localCache : Cache World where
  Set w key x _ :=
    match w.stored key with
    | some _ => ({ w with stored := Function.update w.stored key (some x) }, none)
    | none => ({ w with queued := w.queued ++ [(key, some x)] }, none)
  Get w key :=
    match w.stored key with
    | some x => (w, (x, none))
    | none => (w, ([], some storeNotFound))
  Delete w key :=
    ({ w with stored := Function.update w.stored key none,
              queued := w.queued ++ [(key, none)] }, none)

/-- Initialized process-wide state over the local backend of `Ref.backends`. -/
def localGlobals (pfx : GoString) : Globals World :=
  { cacheManager := some localCache, keyPrefix := pfx }

/-- Values handed to the codec: a struct `T{A: a, B: b}` with two one-byte
integer fields (as a container: a pointer to one), a channel, which `gob`
has no encoding for, or a nil `*T`, on which `gob`'s encoder panics. -/
inductive Value where
  | record (a b : Byte)
  | channel
  | nilPointer
deriving DecidableEq, Repr

/-- The error of encoding a channel. -/
def encodeError : GoError := { ident := 3, Error := [103, 111, 98] }

/-- The error of decoding malformed bytes, or into something that is not a
pointer to a struct. -/
def decodeError : GoError := { ident := 4, Error := [103, 111, 98, 58] }

/-- The message of the encoder's panic on a nil pointer (`"gob: nil"`). -/
def msgNilPointer : GoString := [103, 111, 98, 58, 32, 110, 105, 108]

/-- Wire form of a struct: each field that is not zero is sent as its number
and its value; a field holding zero is not sent. -/
def encodeFields (a b : Byte) : List Byte :=
  (if a = 0 then [] else [1, a]) ++ (if b = 0 then [] else [2, b])

/-- Decoding into a struct holding `(a, b)`: each field received replaces the
field of that number; a field not received keeps what the struct held. -/
def decodeFields : List Byte → Byte × Byte → Option (Byte × Byte)
  | [], r => some r
  | tag :: x :: rest, (a, b) =>
    if tag = 1 then decodeFields rest (x, b)
    else if tag = 2 then decodeFields rest (a, x)
    else none
  | [_], _ => none

/-- A codec on `Value` with `gob`'s treatment of zero fields. -/
def gob : Gob Value where
  Encode v :=
    match v with
    | .record a b => .ret (encodeFields a b, none)
    | .channel => .ret ([], some encodeError)
    | .nilPointer => .panic (.raised msgNilPointer)
  Decode data container :=
    match container with
    | .record a b =>
      match decodeFields data (a, b) with
      | some (a1, b1) => .ret (.record a1 b1, none)
      | none => .ret (container, some decodeError)
    | _ => .ret (container, some decodeError)

end Ref

/-! ## Auxiliary facts -/

theorem Ref.cache_contract : KeyValueContract Ref.cache (fun w => w) Ref.NOT_FOUND_ERR where
  get_present := by
    intro w key x h
    simp only [Ref.cache] at *
    simp [h]
  get_absent := by
    intro w key h
    simp only [Ref.cache] at *
    simp [h, Ref.storeNotFound]
  set_entry := by
    intro w key x _
    simp [Ref.cache]
  set_frame := by
    intro w key x o key' h
    simp [Ref.cache, Function.update, h]
  delete_entry := by
    intro w key _
    simp [Ref.cache]
  delete_frame := by
    intro w key key' h
    simp [Ref.cache, Function.update, h]
  delete_absent := by
    intro w key _
    simp [Ref.cache]

theorem Ref.localCache_no_contract (N : GoString) :
    ¬ ∃ entries, KeyValueContract Ref.localCache entries N := by
  rintro ⟨entries, hB⟩
  have h1 := hB.set_entry Ref.World.empty [] [] rfl
  have h2 := hB.get_present _ [] [] h1
  exact absurd (congrArg Prod.snd h2) (by decide)

theorem compose_injective {σ : Type} (g : Globals σ) : Function.Injective (compose g) := by
  intro k1 k2 h
  simp only [compose] at h
  exact List.append_cancel_left h

theorem compose_ne_of_prefix_ne {σ : Type} (g1 g2 : Globals σ) (key : GoString)
    (h : g1.keyPrefix ≠ g2.keyPrefix) : compose g1 key ≠ compose g2 key := by
  intro heq
  simp only [compose] at heq
  have h1 := List.append_cancel_right heq
  exact h (List.append_cancel_right h1)

theorem Set_of_encodable {σ α : Type} (G : Gob α) (g : Globals σ) (cm : Cache σ)
    (hcm : g.cacheManager = some cm) (k : GoString) (v : α) (w : σ) (data : List Byte)
    (henc : marshal G v = .ret (data, none)) :
    Set G g k v w =
      .ret (cm.Set w (compose g k) (string data) none).2
        (cm.Set w (compose g k) (string data) none).1 := by
  unfold Set
  rw [henc]
  simp [hcm]

theorem Set_of_unencodable {σ α : Type} (G : Gob α) (g : Globals σ) (k : GoString) (v : α)
    (w : σ) (data : List Byte) (err : GoError) (henc : marshal G v = .ret (data, some err)) :
    Set G g k v w = .ret (some err) w := by
  unfold Set
  rw [henc]

theorem Set_of_marshal_panic {σ α : Type} (G : Gob α) (g : Globals σ) (k : GoString) (v : α)
    (w : σ) (p : PanicValue) (henc : marshal G v = .panic p) :
    Set G g k v w = .panic p w := by
  unfold Set
  rw [henc]

theorem SetWithTTL_of_unencodable {σ α : Type} (G : Gob α) (g : Globals σ) (k : GoString)
    (v : α) (ttl : Int) (w : σ) (data : List Byte) (err : GoError)
    (henc : marshal G v = .ret (data, some err)) :
    SetWithTTL G g k v ttl w = .ret (some err) w := by
  unfold SetWithTTL
  rw [henc]

theorem SetWithTTL_of_marshal_panic {σ α : Type} (G : Gob α) (g : Globals σ) (k : GoString)
    (v : α) (ttl : Int) (w : σ) (p : PanicValue) (henc : marshal G v = .panic p) :
    SetWithTTL G g k v ttl w = .panic p w := by
  unfold SetWithTTL
  rw [henc]

theorem Delete_of_initialized {σ : Type} (g : Globals σ) (cm : Cache σ)
    (hcm : g.cacheManager = some cm) (k : GoString) (w : σ) :
    Delete g k w = .ret (cm.Delete w (compose g k)).2 (cm.Delete w (compose g k)).1 := by
  simp [Delete, hcm]

theorem Get_of_store_error {σ α : Type} (E : GoError) (N : GoString) (G : Gob α)
    (g : Globals σ) (cm : Cache σ) (hcm : g.cacheManager = some cm) (k : GoString) (d : α)
    (w : σ) (e : GoError) (hget : (cm.Get w (compose g k)).2.2 = some e) :
    Get E N G g k d w =
      .ret (d, some (if e.Error = N then E else e)) (cm.Get w (compose g k)).1 := by
  unfold Get
  rw [hcm]
  dsimp only
  rw [hget]
  by_cases hN : e.Error = N <;> simp [hN]

theorem Get_of_store_value {σ α : Type} (E : GoError) (N : GoString) (G : Gob α)
    (g : Globals σ) (cm : Cache σ) (hcm : g.cacheManager = some cm) (k : GoString) (d : α)
    (w : σ) (x : GoString) (hget : (cm.Get w (compose g k)).2 = (x, none)) :
    Get E N G g k d w =
      (match unmarshal G (bytes x) d with
        | .panic p => .panic p (cm.Get w (compose g k)).1
        | .ret res => .ret res (cm.Get w (compose g k)).1) := by
  unfold Get
  rw [hcm]
  dsimp only
  rw [hget]

theorem Get_of_not_found {σ α : Type} (E : GoError) (N : GoString) (G : Gob α)
    (g : Globals σ) (cm : Cache σ) (hcm : g.cacheManager = some cm) (k : GoString) (d : α)
    (w : σ) (h : ∃ e, (cm.Get w (compose g k)).2.2 = some e ∧ e.Error = N) :
    (Get E N G g k d w).result = some (d, some E) := by
  obtain ⟨e, he, hN⟩ := h
  rw [Get_of_store_error E N G g cm hcm k d w e he]
  simp [Exec.result, hN]

theorem Get_result_congr {σ α : Type} (E : GoError) (N : GoString) (G : Gob α)
    (g : Globals σ) (cm : Cache σ) (hcm : g.cacheManager = some cm)
    (entries : σ → GoString → Option GoString) (hB : KeyValueContract cm entries N)
    (k : GoString) (d : α) (w w1 : σ)
    (h : entries w1 (compose g k) = entries w (compose g k)) :
    (Get E N G g k d w1).result = (Get E N G g k d w).result := by
  cases hx : entries w (compose g k) with
  | none =>
    rw [Get_of_not_found E N G g cm hcm k d w (hB.get_absent w _ hx),
      Get_of_not_found E N G g cm hcm k d w1 (hB.get_absent w1 _ (h.trans hx))]
  | some x =>
    rw [Get_of_store_value E N G g cm hcm k d w x (hB.get_present w _ x hx),
      Get_of_store_value E N G g cm hcm k d w1 x (hB.get_present w1 _ x (h.trans hx))]
    cases unmarshal G (bytes x) d <;> rfl

theorem Initialize_ret_inv {σ : Type} (L : Libraries σ) (c : Option Config) (g0 g : Globals σ)
    (h : Initialize L c g0 = .ret () g) :
    ∃ s : L.StoreInterface, g.cacheManager = some (L.cache_New s) ∧
      g.keyPrefix = c.elim defaultPrefix Config.Prefix := by
  unfold Initialize at h
  cases c with
  | none =>
    simp only [TypeLocal, if_true] at h
    split at h
    · cases h
    · next rc _ =>
      injection h with _ hg
      exact ⟨L.ristretto_store_NewRistretto rc, by rw [← hg], by rw [← hg]; rfl⟩
  | some c =>
    simp only at h
    split_ifs at h with h1 h2 h3
    · split at h
      · cases h
      · next rc _ =>
        injection h with _ hg
        exact ⟨L.ristretto_store_NewRistretto rc, by rw [← hg], by rw [← hg]; rfl⟩
    · injection h with _ hg
      exact ⟨_, by rw [← hg], by rw [← hg]; rfl⟩

theorem Initialize_nil_ret_inv {σ : Type} (L : Libraries σ) (g0 g : Globals σ)
    (h : Initialize L none g0 = .ret () g) :
    ∃ rc, L.ristretto_NewCache { NumCounters := 1000000, MaxCost := 2 ^ 30, BufferItems := 64 }
        = .ok rc ∧
      g = { cacheManager := some (L.cache_New (L.ristretto_store_NewRistretto rc)),
            keyPrefix := defaultPrefix } := by
  unfold Initialize at h
  simp only [TypeLocal, if_true] at h
  split at h
  · cases h
  · next rc hrc =>
    injection h with _ hg
    exact ⟨rc, hrc, hg.symm⟩

/-! ## Key composition -/

/-- C6: the physical key of a logical key is the namespace, then `":"`, then
the logical key, and for a fixed namespace the composition is injective in
the logical key, whatever bytes the keys contain (a `":"` included). -/
theorem C6_compose_injective {σ : Type} (g : Globals σ) :
    (∀ key, compose g key = g.keyPrefix ++ colon ++ key) ∧
      colon = [58] ∧ Function.Injective (compose g) :=
  ⟨fun _ => rfl, rfl, compose_injective g⟩

/-! ## Error pass-through -/

/-- C3: when the backend's read returns an error `e` whose text is not
`store.NOT_FOUND_ERR`, `Get` returns `e` itself and leaves the container as it
was; no decoding takes place. -/
theorem C3_Get_passes_error_through {σ α : Type} (ErrorNotFound : GoError)
    (NOT_FOUND_ERR : GoString) (G : Gob α) (g : Globals σ) (cm : Cache σ)
    (hcm : g.cacheManager = some cm) (key : GoString) (container : α) (w : σ) (e : GoError)
    (hget : (cm.Get w (compose g key)).2.2 = some e) (hne : e.Error ≠ NOT_FOUND_ERR) :
    Get ErrorNotFound NOT_FOUND_ERR G g key container w =
      .ret (container, some e) (cm.Get w (compose g key)).1 := by
  rw [Get_of_store_error ErrorNotFound NOT_FOUND_ERR G g cm hcm key container w e hget]
  simp [hne]

/-- C3 at a backend whose read fails with the error `"EOF"`: `Get` returns
that error and the container keeps its content. -/
theorem C3_Get_passes_error_through_witness :
    Get Ref.ErrorNotFound Ref.NOT_FOUND_ERR Ref.gob
        { cacheManager := some Ref.brokenCache, keyPrefix := [97] } [107] (Ref.Value.record 1 0)
        Ref.empty =
      .ret (Ref.Value.record 1 0, some Ref.storeFailure) Ref.empty :=
  C3_Get_passes_error_through Ref.ErrorNotFound Ref.NOT_FOUND_ERR Ref.gob
    { cacheManager := some Ref.brokenCache, keyPrefix := [97] } Ref.brokenCache rfl [107]
    (Ref.Value.record 1 0) Ref.empty Ref.storeFailure rfl (by decide)

/-! ## Initialization -/

/-- C8: `Initialize` on a `Config` of kind `TypeRedis` with an empty
`RedisURL`, or of a kind that is neither `TypeLocal` nor `TypeRedis`, panics,
and `cacheManager` and `keyPrefix` are what they were before the call. -/
theorem C8_Initialize_bad_config_panics {σ : Type} (L : Libraries σ) (c : Config)
    (g : Globals σ)
    (hbad : (c.Type_ = TypeRedis ∧ c.RedisURL = []) ∨
      (c.Type_ ≠ TypeLocal ∧ c.Type_ ≠ TypeRedis)) :
    Initialize L (some c) g =
      .panic (.errorf (if c.Type_ = TypeRedis then msgNeedsRedisURL else msgUnknownCacheType))
        g := by
  unfold Initialize
  rcases hbad with ⟨h1, h2⟩ | ⟨h1, h2⟩
  · have h3 : TypeRedis ≠ TypeLocal := by decide
    simp [h1, h2, h3]
  · simp [h1, h2]

/-- C8 at a redis configuration without URL, starting from an initialized
state with namespace `"a"`: the call panics and the state is kept. -/
theorem C8_Initialize_bad_config_panics_witness :
    Initialize Ref.libraries (some { Prefix := [98], Type_ := TypeRedis, RedisURL := [] })
        (Ref.globals [97]) =
      .panic (.errorf msgNeedsRedisURL) (Ref.globals [97]) :=
  C8_Initialize_bad_config_panics Ref.libraries
    { Prefix := [98], Type_ := TypeRedis, RedisURL := [] } (Ref.globals [97])
    (Or.inl ⟨rfl, rfl⟩)

/-- C9 (as amended): after a successful `Initialize` with a nil configuration
the namespace is `"default"`, every physical key is `"default" + ":" + key`,
and `cacheManager` is the cache built over the local (ristretto) store; after
a successful `Initialize` with a `Config` the namespace is that `Config`'s
`Prefix` as given, the empty string when it was left empty. -/
theorem C9_Initialize_prefix_in_effect {σ : Type} (L : Libraries σ) (c : Option Config)
    (g0 g : Globals σ) (hinit : Initialize L c g0 = .ret () g) :
    (c = none →
      g.keyPrefix = defaultPrefix ∧
      (∀ key, compose g key = defaultPrefix ++ colon ++ key) ∧
      ∃ rc, L.ristretto_NewCache { NumCounters := 1000000, MaxCost := 2 ^ 30, BufferItems := 64 }
          = .ok rc ∧
        g.cacheManager = some (L.cache_New (L.ristretto_store_NewRistretto rc))) ∧
    (∀ cfg, c = some cfg →
      g.keyPrefix = cfg.Prefix ∧ ∀ key, compose g key = cfg.Prefix ++ colon ++ key) := by
  constructor
  · intro hc
    subst hc
    obtain ⟨rc, hrc, hg⟩ := Initialize_nil_ret_inv L g0 g hinit
    subst hg
    exact ⟨rfl, fun _ => rfl, rc, hrc, rfl⟩
  · intro cfg hc
    subst hc
    obtain ⟨_, _, hp⟩ := Initialize_ret_inv L (some cfg) g0 g hinit
    have hp2 : g.keyPrefix = cfg.Prefix := hp
    exact ⟨hp2, fun key => by simp only [compose, hp2]⟩

/-- C9 (as amended) on the reference libraries with a nil configuration. -/
theorem C9_Initialize_prefix_in_effect_witness :
    (none = (none : Option Config) →
      (Ref.globals defaultPrefix).keyPrefix = defaultPrefix ∧
      (∀ key, compose (Ref.globals defaultPrefix) key = defaultPrefix ++ colon ++ key) ∧
      ∃ rc, Ref.libraries.ristretto_NewCache
          { NumCounters := 1000000, MaxCost := 2 ^ 30, BufferItems := 64 } = .ok rc ∧
        (Ref.globals defaultPrefix).cacheManager =
          some (Ref.libraries.cache_New (Ref.libraries.ristretto_store_NewRistretto rc))) ∧
    (∀ cfg : Config, none = some cfg →
      (Ref.globals defaultPrefix).keyPrefix = cfg.Prefix ∧
      ∀ key, compose (Ref.globals defaultPrefix) key = cfg.Prefix ++ colon ++ key) :=
  C9_Initialize_prefix_in_effect Ref.libraries none (Globals.zero Ref.State)
    (Ref.globals defaultPrefix) rfl

/-- C9 fails as stated: a successful `Initialize` with a local `Config` whose
`Prefix` is left empty puts the empty namespace in effect, not `"default"`,
and the physical key of `"k"` is `":k"`. -/
theorem C9_empty_Prefix_counterexample :
    (Initialize Ref.libraries (some { Prefix := [], Type_ := TypeLocal, RedisURL := [] })
        (Globals.zero Ref.State)).panicked = false ∧
    (Initialize Ref.libraries (some { Prefix := [], Type_ := TypeLocal, RedisURL := [] })
        (Globals.zero Ref.State)).state.keyPrefix = [] ∧
    (Initialize Ref.libraries (some { Prefix := [], Type_ := TypeLocal, RedisURL := [] })
        (Globals.zero Ref.State)).state.keyPrefix ≠ defaultPrefix ∧
    compose (Initialize Ref.libraries (some { Prefix := [], Type_ := TypeLocal, RedisURL := [] })
        (Globals.zero Ref.State)).state [107] = [58, 107] ∧
    compose (Initialize Ref.libraries (some { Prefix := [], Type_ := TypeLocal, RedisURL := [] })
        (Globals.zero Ref.State)).state [107] ≠ defaultPrefix ++ colon ++ [107] := by
  refine ⟨rfl, rfl, ?_, rfl, ?_⟩
  · intro h
    exact absurd h (by decide)
  · intro h
    exact absurd h (by decide)


/-! ## Reads after writes -/

/-- C5 (as amended): in an initialized cache `Delete` returns exactly what
the backend's delete of the composed key returns, a failure of the backend
included.  So on a backend whose delete of an absent key reports no error,
`Delete` of a key that has no entry returns no error; and, on a backend whose
delete that reports no error removes the entry of its key and touches no
other, from every state, after a `Delete` of a key that returned no error a
second `Delete` of the same key returns no error and leaves the backend
holding the same entries as after the first. -/
theorem C5_Delete_idempotent {σ : Type} (g : Globals σ)
    (cm : Cache σ) (hcm : g.cacheManager = some cm)
    (entries : σ → GoString → Option GoString)
    (habs : ∀ w key, entries w key = none → (cm.Delete w key).2 = none)
    (hrem : ∀ w key, (cm.Delete w key).2 = none → entries (cm.Delete w key).1 key = none)
    (hframe : ∀ w key key', key' ≠ key → entries (cm.Delete w key).1 key' = entries w key')
    (key : GoString) :
    (∀ w, Delete g key w =
        .ret (cm.Delete w (compose g key)).2 (cm.Delete w (compose g key)).1) ∧
      (∀ w, entries w (compose g key) = none → (Delete g key w).result = some none) ∧
      (∀ w, (Delete g key w).result = some none →
        (Delete g key (Delete g key w).state).result = some none ∧
        entries (Delete g key (Delete g key w).state).state
          = entries (Delete g key w).state) := by
  refine ⟨fun w => Delete_of_initialized g cm hcm key w, ?_, ?_⟩
  · intro w hnone
    rw [Delete_of_initialized g cm hcm key w]
    simp only [Exec.result, Option.some.injEq]
    exact habs w _ hnone
  · intro w hdel
    rw [Delete_of_initialized g cm hcm key w] at hdel ⊢
    simp only [Exec.result, Option.some.injEq] at hdel
    simp only [Exec.state]
    have hgone := hrem w _ hdel
    have hsecond := habs _ _ hgone
    rw [Delete_of_initialized g cm hcm key _]
    refine ⟨by simp only [Exec.result, Option.some.injEq]; exact hsecond, ?_⟩
    simp only [Exec.state]
    funext key'
    by_cases hk : key' = compose g key
    · subst hk
      rw [hrem _ _ hsecond, hgone]
    · exact hframe _ _ key' hk

/-- C5 (as amended) on the write-buffered local backend under namespace
`"default"`, key `"k"`, the entries being those reads see. -/
theorem C5_Delete_idempotent_witness :
    (∀ w : Ref.World, Delete (Ref.localGlobals defaultPrefix) [107] w =
        .ret (Ref.localCache.Delete w (compose (Ref.localGlobals defaultPrefix) [107])).2
          (Ref.localCache.Delete w (compose (Ref.localGlobals defaultPrefix) [107])).1) ∧
      (∀ w : Ref.World, w.stored (compose (Ref.localGlobals defaultPrefix) [107]) = none →
        (Delete (Ref.localGlobals defaultPrefix) [107] w).result = some none) ∧
      (∀ w : Ref.World, (Delete (Ref.localGlobals defaultPrefix) [107] w).result = some none →
        (Delete (Ref.localGlobals defaultPrefix) [107]
            (Delete (Ref.localGlobals defaultPrefix) [107] w).state).result = some none ∧
        (Delete (Ref.localGlobals defaultPrefix) [107]
            (Delete (Ref.localGlobals defaultPrefix) [107] w).state).state.stored
          = (Delete (Ref.localGlobals defaultPrefix) [107] w).state.stored) :=
  C5_Delete_idempotent (Ref.localGlobals defaultPrefix) Ref.localCache rfl
    (fun w => w.stored) (fun _ _ _ => rfl)
    (fun w key _ => by simp [Ref.localCache])
    (fun w key key' h => by simp [Ref.localCache, Function.update, h]) [107]

/-- C5 fails as stated on a backend that cannot be reached: in an
initialized cache with no entry for `"k"`, `Delete("k")` returns the backend's
error, not success, and so does a second `Delete("k")`. -/
theorem C5_Delete_backend_failure_counterexample :
    Ref.empty (compose
        ({ cacheManager := some Ref.brokenCache, keyPrefix := [97] } : Globals Ref.State)
        [107]) = none ∧
    (Delete { cacheManager := some Ref.brokenCache, keyPrefix := [97] } [107]
        Ref.empty).result = some (some Ref.storeFailure) ∧
    (Delete { cacheManager := some Ref.brokenCache, keyPrefix := [97] } [107]
        (Delete { cacheManager := some Ref.brokenCache, keyPrefix := [97] } [107]
          Ref.empty).state).result = some (some Ref.storeFailure) ∧
    some (some Ref.storeFailure) ≠ (some none : Option (Option GoError)) := by
  refine ⟨rfl, rfl, rfl, by decide⟩

/-! ## Namespaces -/

/-- C7: for two initialized states with different namespaces over one shared
backend that meets its contract, and every logical key: the two physical keys
differ, and neither a `Set` nor a `Delete` of the key under the first
namespace changes what `Get` of the key under the second returns (container
content and error). -/
theorem C7_namespace_isolation {σ α : Type} (ErrorNotFound : GoError)
    (NOT_FOUND_ERR : GoString) (G : Gob α) (g1 g2 : Globals σ) (cm : Cache σ)
    (h1 : g1.cacheManager = some cm) (h2 : g2.cacheManager = some cm)
    (hp : g1.keyPrefix ≠ g2.keyPrefix) (entries : σ → GoString → Option GoString)
    (hB : KeyValueContract cm entries NOT_FOUND_ERR) (key : GoString) :
    compose g1 key ≠ compose g2 key ∧
      (∀ (v dest : α) (w : σ),
        (Get ErrorNotFound NOT_FOUND_ERR G g2 key dest (Set G g1 key v w).state).result
          = (Get ErrorNotFound NOT_FOUND_ERR G g2 key dest w).result) ∧
      (∀ (dest : α) (w : σ),
        (Get ErrorNotFound NOT_FOUND_ERR G g2 key dest (Delete g1 key w).state).result
          = (Get ErrorNotFound NOT_FOUND_ERR G g2 key dest w).result) := by
  have hne : compose g2 key ≠ compose g1 key :=
    fun h => compose_ne_of_prefix_ne g1 g2 key hp h.symm
  refine ⟨fun h => hne h.symm, ?_, ?_⟩
  · intro v dest w
    apply Get_result_congr ErrorNotFound NOT_FOUND_ERR G g2 cm h2 entries hB key dest
    cases henc : marshal G v with
    | panic p =>
      rw [Set_of_marshal_panic G g1 key v w p henc]
      rfl
    | ret r =>
      obtain ⟨data, err⟩ := r
      cases err with
      | none =>
        rw [Set_of_encodable G g1 cm h1 key v w data henc]
        exact hB.set_frame w _ _ none _ hne
      | some err =>
        rw [Set_of_unencodable G g1 key v w data err henc]
        rfl
  · intro dest w
    apply Get_result_congr ErrorNotFound NOT_FOUND_ERR G g2 cm h2 entries hB key dest
    rw [Delete_of_initialized g1 cm h1 key w]
    exact hB.delete_frame w _ _ hne

/-- C7 on the reference backend with namespaces `"a"` and `"b"`, key `"k"`. -/
theorem C7_namespace_isolation_witness :
    compose (Ref.globals [97]) [107] ≠ compose (Ref.globals [98]) [107] ∧
      (∀ (v dest : Ref.Value) (w : Ref.State),
        (Get Ref.ErrorNotFound Ref.NOT_FOUND_ERR Ref.gob (Ref.globals [98]) [107] dest
            (Set Ref.gob (Ref.globals [97]) [107] v w).state).result
          = (Get Ref.ErrorNotFound Ref.NOT_FOUND_ERR Ref.gob (Ref.globals [98]) [107] dest
              w).result) ∧
      (∀ (dest : Ref.Value) (w : Ref.State),
        (Get Ref.ErrorNotFound Ref.NOT_FOUND_ERR Ref.gob (Ref.globals [98]) [107] dest
            (Delete (Ref.globals [97]) [107] w).state).result
          = (Get Ref.ErrorNotFound Ref.NOT_FOUND_ERR Ref.gob (Ref.globals [98]) [107] dest
              w).result) :=
  C7_namespace_isolation Ref.ErrorNotFound Ref.NOT_FOUND_ERR Ref.gob (Ref.globals [97])
    (Ref.globals [98]) Ref.cache rfl rfl (by decide) (fun w => w) Ref.cache_contract [107]

/-! ## Calls before initialization -/

/-- C10 (as amended): while `cacheManager` is nil, `Get` and `Delete` panic
for every key; `Set` and `SetWithTTL` panic for every key and every value
that `marshal` encodes (the nil `cacheManager` is dereferenced) and for every
value on which `marshal` itself panics (with that panic); for a value on
which `marshal` returns an error, `Set` and `SetWithTTL` return that error
and do not panic. -/
theorem C10_uninitialized_calls {σ α : Type} (ErrorNotFound : GoError)
    (NOT_FOUND_ERR : GoString) (G : Gob α) (g : Globals σ) (hnil : g.cacheManager = none) :
    (∀ key (container : α) (w : σ),
        Get ErrorNotFound NOT_FOUND_ERR G g key container w = .panic .nilDereference w) ∧
      (∀ key (w : σ), Delete g key w = .panic .nilDereference w) ∧
      (∀ key (v : α) (ttl : Int) (w : σ) (data : List Byte),
        marshal G v = .ret (data, none) →
        Set G g key v w = .panic .nilDereference w ∧
        SetWithTTL G g key v ttl w = .panic .nilDereference w) ∧
      (∀ key (v : α) (ttl : Int) (w : σ) (p : PanicValue), marshal G v = .panic p →
        Set G g key v w = .panic p w ∧ SetWithTTL G g key v ttl w = .panic p w) ∧
      (∀ key (v : α) (ttl : Int) (w : σ) (data : List Byte) (err : GoError),
        marshal G v = .ret (data, some err) →
        Set G g key v w = .ret (some err) w ∧
        SetWithTTL G g key v ttl w = .ret (some err) w) := by
  refine ⟨?_, ?_, ?_, ?_, ?_⟩
  · intro key container w
    simp [Get, hnil]
  · intro key w
    simp [Delete, hnil]
  · intro key v ttl w data henc
    unfold Set SetWithTTL
    rw [henc]
    simp [hnil]
  · intro key v ttl w p henc
    exact ⟨Set_of_marshal_panic G g key v w p henc,
      SetWithTTL_of_marshal_panic G g key v ttl w p henc⟩
  · intro key v ttl w data err henc
    exact ⟨Set_of_unencodable G g key v w data err henc,
      SetWithTTL_of_unencodable G g key v ttl w data err henc⟩

/-- C10 (as amended) on the package variables before any assignment. -/
theorem C10_uninitialized_calls_witness :
    (∀ key (container : Ref.Value) (w : Ref.State),
        Get Ref.ErrorNotFound Ref.NOT_FOUND_ERR Ref.gob (Globals.zero Ref.State) key container w
          = .panic .nilDereference w) ∧
      (∀ key (w : Ref.State),
        Delete (Globals.zero Ref.State) key w = .panic .nilDereference w) ∧
      (∀ key (v : Ref.Value) (ttl : Int) (w : Ref.State) (data : List Byte),
        marshal Ref.gob v = .ret (data, none) →
        Set Ref.gob (Globals.zero Ref.State) key v w = .panic .nilDereference w ∧
        SetWithTTL Ref.gob (Globals.zero Ref.State) key v ttl w = .panic .nilDereference w) ∧
      (∀ key (v : Ref.Value) (ttl : Int) (w : Ref.State) (p : PanicValue),
        marshal Ref.gob v = .panic p →
        Set Ref.gob (Globals.zero Ref.State) key v w = .panic p w ∧
        SetWithTTL Ref.gob (Globals.zero Ref.State) key v ttl w = .panic p w) ∧
      (∀ key (v : Ref.Value) (ttl : Int) (w : Ref.State) (data : List Byte) (err : GoError),
        marshal Ref.gob v = .ret (data, some err) →
        Set Ref.gob (Globals.zero Ref.State) key v w = .ret (some err) w ∧
        SetWithTTL Ref.gob (Globals.zero Ref.State) key v ttl w = .ret (some err) w) :=
  C10_uninitialized_calls Ref.ErrorNotFound Ref.NOT_FOUND_ERR Ref.gob (Globals.zero Ref.State)
    rfl

/-- C10 fails as stated: with `cacheManager` nil, `Set` and `SetWithTTL` of a
channel, which `marshal` cannot encode, do not panic; they return the
encoding error and leave the backend as it was. -/
theorem C10_unencodable_value_counterexample :
    (Globals.zero Ref.State).cacheManager.isNone = true ∧
    marshal Ref.gob Ref.Value.channel = .ret ([], some Ref.encodeError) ∧
    (Set Ref.gob (Globals.zero Ref.State) [107] Ref.Value.channel Ref.empty).panicked = false ∧
    (Set Ref.gob (Globals.zero Ref.State) [107] Ref.Value.channel Ref.empty).result
      = some (some Ref.encodeError) ∧
    (SetWithTTL Ref.gob (Globals.zero Ref.State) [107] Ref.Value.channel 1000000000
      Ref.empty).panicked = false ∧
    (SetWithTTL Ref.gob (Globals.zero Ref.State) [107] Ref.Value.channel 1000000000
      Ref.empty).result = some (some Ref.encodeError) :=
  ⟨rfl, rfl, rfl, rfl, rfl, rfl⟩

end CachePkg
